import Mathlib

set_option maxRecDepth 100000

/-!
Verification of the rusty-bittorrent-client repository.

This file shallowly embeds the parts of the source that the claims are
about: the bencode decoder (src/bencode.rs), the peer-wire framing and
the piece download loop (src/tracker.rs).  Bytes are modelled as `Nat`
(values < 256 where the source has `u8`), byte strings as `List Nat`,
Rust `&str` input as `List Char` (the source indexes by byte; on the
ASCII inputs considered here byte and char positions coincide).
Fallible Rust code (`Result`) becomes `Except String`, and code that can
panic (out-of-range slice indexing, `expect`, `unimplemented`) is
wrapped in `Option` with `none` marking the panic.
-/

/-- Big-endian byte encoding of `n` into `k` bytes, as produced by the
Rust `to_be_bytes` methods (`k = 4` for `u32`, `k = 8` for `usize` on
the 64-bit targets this crate builds for, `k = 1` for `u8`). -/
def beBytes (k n : Nat) : List Nat :=
  (List.range k).map (fun i => (n >>> (8 * (k - 1 - i))) % 256)

/-! ## SHA-1

`tracker.rs` calls `Hash::hash` (SHA-1 of a byte string) and compares
the result bytewise with the expected piece hash.  The `Hash` type lives
in `crate::torrent` but its definition is not part of the source
snapshot, so it is modelled from the spec below.
-/

/-- Truncation to 32 bits. -/
def w32 (x : Nat) : Nat := x % 4294967296

/-- 32-bit left rotation (argument assumed < 2^32). -/
def rotl (s x : Nat) : Nat := ((x <<< s) % 4294967296) + (x >>> (32 - s))

/-- SHA-1 message padding: append 0x80, zero bytes up to 56 mod 64, then
the bit length as 8 big-endian bytes. -/
def sha1pad (msg : List Nat) : List Nat :=
  msg ++ [128] ++ List.replicate ((119 - msg.length % 64) % 64) 0
      ++ beBytes 8 (8 * msg.length)

/-- Split a byte list into 64-byte chunks (fuel-indexed, structurally
recursive; the first argument bounds the number of chunks). -/
def chunks64 : Nat → List Nat → List (List Nat)
  | 0, _ => []
  | _, [] => []
  | n + 1, l => l.take 64 :: chunks64 n (l.drop 64)

/-- The 16 initial 32-bit words of a 64-byte block, big-endian. -/
def toWords (block : List Nat) : List Nat :=
  (List.range 16).map (fun i =>
    ((block.getD (4 * i) 0) <<< 24) + ((block.getD (4 * i + 1) 0) <<< 16)
      + ((block.getD (4 * i + 2) 0) <<< 8) + block.getD (4 * i + 3) 0)

/-- Extend the 16 words to 80 by the SHA-1 word recurrence. -/
def extendW : Nat → List Nat → List Nat
  | 0, ws => ws
  | n + 1, ws =>
    extendW n (ws ++ [rotl 1 ((ws.getD (ws.length - 3) 0) ^^^ (ws.getD (ws.length - 8) 0)
      ^^^ (ws.getD (ws.length - 14) 0) ^^^ (ws.getD (ws.length - 16) 0))])

/-- SHA-1 round function. -/
def shaF (t b c d : Nat) : Nat :=
  if t < 20 then (b &&& c) ||| ((b ^^^ 4294967295) &&& d)
  else if t < 40 then b ^^^ c ^^^ d
  else if t < 60 then (b &&& c) ||| (b &&& d) ||| (c &&& d)
  else b ^^^ c ^^^ d

/-- SHA-1 round constants. -/
def shaK (t : Nat) : Nat :=
  if t < 20 then 0x5A827999
  else if t < 40 then 0x6ED9EBA1
  else if t < 60 then 0x8F1BBCDC
  else 0xCA62C1D6

/-- One SHA-1 round on the five-word state. -/
def roundStep (st : Nat × Nat × Nat × Nat × Nat) (tw : Nat × Nat) :
    Nat × Nat × Nat × Nat × Nat :=
  let (a, b, c, d, e) := st
  let (t, w) := tw
  (w32 (rotl 5 a + shaF t b c d + e + shaK t + w), a, rotl 30 b, c, d)

/-- Compress one 64-byte block into the running hash state. -/
def processBlock (h : Nat × Nat × Nat × Nat × Nat) (block : List Nat) :
    Nat × Nat × Nat × Nat × Nat :=
  let (a, b, c, d, e) := ((extendW 64 (toWords block)).enum).foldl roundStep h
  (w32 (h.1 + a), w32 (h.2.1 + b), w32 (h.2.2.1 + c), w32 (h.2.2.2.1 + d), w32 (h.2.2.2.2 + e))

/-- SHA-1 of a byte string, as a list of 20 bytes. -/
def sha1 (msg : List Nat) : List Nat :=
  let st := (chunks64 (msg.length + 9) (sha1pad msg)).foldl processBlock
    (0x67452301, 0xEFCDAB89, 0x98BADCFE, 0x10325476, 0xC3D2E1F0)
  beBytes 4 st.1 ++ beBytes 4 st.2.1 ++ beBytes 4 st.2.2.1
    ++ beBytes 4 st.2.2.2.1 ++ beBytes 4 st.2.2.2.2

/-- Modelled from the spec: the `Hash` type of `crate::torrent` is
imported by `tracker.rs` but missing from the source snapshot.  Per the
spec it is an opaque 20-byte identifier compared bytewise, produced
either from raw bytes (`Hash::new`) or as the SHA-1 digest of a byte
string (`Hash::hash`). -/
structure Hash where
  bytes : List Nat
deriving DecidableEq, Repr

/-- Modelled from the spec: wrap 20 raw bytes. -/
def Hash.new (b : List Nat) : Hash := ⟨b⟩

/-- Modelled from the spec: expose the raw bytes. -/
def Hash.get_hash (h : Hash) : List Nat := h.bytes

/-- Modelled from the spec: the SHA-1 digest of a byte string. -/
def Hash.hash (data : List Nat) : Hash := ⟨sha1 data⟩

/-! ## Wire framing (src/tracker.rs)

Constants from the top of `tracker.rs`.
-/

def HANDSHAKE_BYTE_SIZE : Nat := 68
def BLOCK_SIZE : Nat := 16 * 1024
def MAX_PAYLOAD_LEN : Nat := 1048576
def ID_SIZE_BYTES : Nat := 1
def INDEX_SIZE_BYTES : Nat := 4
def BEGIN_SIZE_BYTES : Nat := 4
def LENGTH_SIZE_BYTES : Nat := 4
def REQUEST_MESSAGE_LENGTH_BYTES : Nat :=
  ID_SIZE_BYTES + INDEX_SIZE_BYTES + BEGIN_SIZE_BYTES + LENGTH_SIZE_BYTES

/-- The byte values of the ASCII string "BitTorrent protocol". -/
def protocolBytes : List Nat := "BitTorrent protocol".data.map Char.toNat

/-- Model of `struct Handshake` of `tracker.rs`. -/
structure Handshake where
  info_hash : Hash
  peer_id : List Nat
deriving DecidableEq, Repr

/-- Model of `Handshake::to_bytes`.  The source writes into a fixed `[u8; 68]`
with `copy_from_slice`, which panics (`none`) unless the info-hash is 20
bytes and the peer id is 20 bytes; otherwise the result is the
concatenation of the five fixed-width fields. -/
def Handshake.to_bytes (h : Handshake) : Option (List Nat) :=
  if h.info_hash.get_hash.length = 20 ∧ h.peer_id.length = 20 then
    some ([19] ++ (protocolBytes ++ (List.replicate 8 0
      ++ (h.info_hash.get_hash ++ h.peer_id))))
  else none

/-- Model of `Handshake::from_bytes`: extract bytes 28..48 as the info-hash and
48..68 as the peer id.  The `try_into` can only fail if the 28..48 slice
is not 20 bytes long, which on a `[u8; 68]` input never happens; no byte
of the input is compared against anything. -/
def Handshake.from_bytes (data : List Nat) : Except String Handshake :=
  if ((data.drop 28).take 20).length = 20 then
    .ok ⟨Hash.new ((data.drop 28).take 20), (data.drop 48).take 20⟩
  else .error "when converting to info_hash"

/-- Model of `struct RequestPayload` (three `u32` fields). -/
structure RequestPayload where
  index : Nat
  begin : Nat
  length : Nat
deriving DecidableEq, Repr

/-- Model of `struct PiecePayload`. -/
structure PiecePayload where
  block : List Nat
deriving DecidableEq, Repr

/-- Model of `PiecePayload::from_bytes`.  The source slices `b[..4]`, `b[4..8]`
and `b[8..]`, each of which panics (`none`) when `b` is too short; on a
payload of at least 8 bytes it keeps at most `BLOCK_SIZE` bytes of the
part after the two `u32` headers and never returns an error. -/
def PiecePayload.from_bytes (b : List Nat) : Option (Except String PiecePayload) :=
  if b.length < 4 then none
  else if b.length < 8 then none
  else some (.ok ⟨if (b.drop 8).length < BLOCK_SIZE then b.drop 8
                  else (b.drop 8).take BLOCK_SIZE⟩)

/-- Model of `enum PeerMessage`. -/
inductive PeerMessage where
  | bitfield
  | interested
  | unchoke
  | request (rp : RequestPayload)
  | piece (pp : PiecePayload)
deriving DecidableEq, Repr

/-- Model of `PeerMessage::from_bytes`, dispatching on the message id byte.  Id 6
calls `RequestPayload::from_bytes`, which unconditionally bails; id 7
parses a piece payload (and can therefore panic on short payloads); any
other id except 1, 2, 5 bails with "unknown byte message id". -/
def PeerMessage.from_bytes (ident : Nat) (payload : List Nat) :
    Option (Except String PeerMessage) :=
  if ident = 1 then some (.ok .unchoke)
  else if ident = 2 then some (.ok .interested)
  else if ident = 5 then some (.ok .bitfield)
  else if ident = 6 then
    some (.error "unexpected RequestPayload in PeerMessage, from_bytes is not implemented")
  else if ident = 7 then
    match PiecePayload.from_bytes payload with
    | none => none
    | some (.error e) => some (.error e)
    | some (.ok pp) => some (.ok (.piece pp))
  else some (.error ("unknown byte message id: " ++ toString ident))

/-- Model of `PeerMessage::to_bytes`.  The request arm writes
`REQUEST_MESSAGE_LENGTH_BYTES.to_be_bytes()` — a `usize`, hence 8 bytes
on a 64-bit target — then the id byte and the three big-endian `u32`
fields.  The piece arm calls `PiecePayload::to_bytes`, which is
`unimplemented` and panics (`none`). -/
def PeerMessage.to_bytes : PeerMessage → Option (List Nat)
  | .unchoke => some [0, 0, 0, 1, 1]
  | .interested => some [0, 0, 0, 1, 2]
  | .bitfield => some [0, 0, 0, 1, 5]
  | .request rp =>
    some (beBytes 8 REQUEST_MESSAGE_LENGTH_BYTES ++ beBytes 1 6
      ++ beBytes 4 rp.index ++ beBytes 4 rp.begin ++ beBytes 4 rp.length)
  | .piece _ => none

/-- Model of `PeerMessageReader::from_stream`, given one received frame as its id
byte and payload bytes: the reader bails when the payload length exceeds
`MAX_PAYLOAD_LEN` and otherwise parses the message. -/
def readMessage (ident : Nat) (payload : List Nat) :
    Option (Except String PeerMessage) :=
  if payload.length > MAX_PAYLOAD_LEN then
    some (.error "message specifies too large payload length")
  else PeerMessage.from_bytes ident payload

/-! ## Block request generator (src/tracker.rs, `RequestPayloadGen`) -/

/-- Model of `struct RequestPayloadGen`. -/
structure RequestPayloadGen where
  piece_len : Nat
  piece_idx : Nat
  progress : Nat
deriving DecidableEq, Repr

/-- Outcome of one `RequestPayloadGen::next` call: `done` for `None`,
`yield` for `Some` (with the successor state), `crash` when one of the
`try_into().expect("must fit into u32")` conversions panics. -/
inductive GenStep where
  | done
  | crash
  | yield (rp : RequestPayload) (g : RequestPayloadGen)
deriving DecidableEq, Repr

/-- Model of `RequestPayloadGen::next`. -/
def RequestPayloadGen.next (g : RequestPayloadGen) : GenStep :=
  if g.piece_len ≤ g.progress then .done
  else
    let next_progress := g.progress + BLOCK_SIZE
    let len := if next_progress ≤ g.piece_len then BLOCK_SIZE
               else g.piece_len - (next_progress - BLOCK_SIZE)
    if g.piece_idx < 4294967296 then
      if g.progress < 4294967296 then
        if len < 4294967296 then
          .yield ⟨g.piece_idx, g.progress, len⟩ ⟨g.piece_len, g.piece_idx, next_progress⟩
        else .crash
      else .crash
    else .crash

/-- Run the generator to exhaustion, collecting the emitted requests in
order (fuel-indexed for structural recursion; each emitted request
consumes one unit, so `piece_len - progress` spare units always
suffice).  `none` marks a `u32` conversion panic or fuel exhaustion. -/
def emitFrom : Nat → RequestPayloadGen → Option (List RequestPayload)
  | 0, _ => none
  | fuel + 1, g =>
    match g.next with
    | .done => some []
    | .crash => none
    | .yield rp g' => (emitFrom fuel g').map (rp :: ·)

/-- The full request sequence of a generator started by
`RequestPayloadGen::new`, i.e. at `progress = 0`. -/
def RequestPayloadGen.run (g : RequestPayloadGen) : Option (List RequestPayload) :=
  emitFrom (g.piece_len + 1) g

/-! ## Piece download loop (src/tracker.rs, `download_piece`) -/

/-- Model of `struct Piece`. -/
structure Piece where
  hash : Hash
  idx : Nat
  len : Nat
deriving DecidableEq, Repr

/-- The request/response loop of `download_piece`: for each request the
generator yields, one frame is read from the stream (modelled as the
next element of `msgs`); it must parse as a `Piece` message, whose block
is appended to the accumulated data.  An exhausted stream is an I/O
error on `read_exact`; `none` marks a panic (or fuel exhaustion, which
`piece_len + 1` units rule out). -/
def dpLoop : Nat → RequestPayloadGen → List (Nat × List Nat) → List Nat →
    Option (Except String (List Nat))
  | 0, _, _, _ => none
  | fuel + 1, g, msgs, acc =>
    match g.next with
    | .crash => none
    | .done => some (.ok acc)
    | .yield _rp g' =>
      match msgs with
      | [] => some (.error "connection closed before message was read")
      | (ident, payload) :: rest =>
        match readMessage ident payload with
        | none => none
        | some (.error e) => some (.error e)
        | some (.ok (.piece pp)) => dpLoop fuel g' rest (acc ++ pp.block)
        | some (.ok _) => some (.error "expected Piece PeerMessage, got other")

/-- Model of `download_piece`: run the block request/response loop, then compare
the SHA-1 of the concatenated data with the expected piece hash; bail
on mismatch, otherwise return the piece data. -/
def download_piece (piece : Piece) (msgs : List (Nat × List Nat)) :
    Option (Except String (List Nat)) :=
  match dpLoop (piece.len + 1) ⟨piece.len, piece.idx, 0⟩ msgs [] with
  | none => none
  | some (.error e) => some (.error e)
  | some (.ok piece_data) =>
    if Hash.hash piece_data ≠ piece.hash then
      some (.error "hash not matching of downloaded piece")
    else some (.ok piece_data)

/-! ## Bencode decoder (src/bencode.rs)

The decoder works on `&str` input, peeking and consuming an enumerated
char iterator and re-slicing the input by index; the model keeps the
input fixed as a `List Char` and tracks the iterator position.  The
decoded value is the `serde_json::Value` tree: its `Map` is a `BTreeMap`
ordered by key, modelled as an association list kept sorted by `String`
order, with `insert` overwriting the value of an existing key.
-/

/-- The `serde_json::Value` variants the decoder produces. -/
inductive JValue where
  | num (n : Int)
  | str (s : String)
  | arr (l : List JValue)
  | obj (m : List (String × JValue))

/-- Lexicographic order on char lists by code point; on the ASCII keys
considered here this agrees with the byte order `BTreeMap` sorts by. -/
def lexLt : List Char → List Char → Bool
  | [], [] => false
  | [], _ :: _ => true
  | _ :: _, [] => false
  | a :: as, b :: bs =>
    if a.toNat < b.toNat then true
    else if a.toNat = b.toNat then lexLt as bs
    else false

/-- Model of `serde_json::Map::insert` on the sorted association list: overwrite
the value when the key is present, otherwise insert in key order. -/
def mapInsert (k : String) (v : JValue) : List (String × JValue) → List (String × JValue)
  | [] => [(k, v)]
  | (k', v') :: rest =>
    if lexLt k.data k'.data then (k, v) :: (k', v') :: rest
    else if k = k' then (k, v) :: rest
    else (k', v') :: mapInsert k v rest

/-- Model of `ParsedValue`: a decoded value together with the number of input
bytes it covered. -/
structure PV where
  length : Nat
  value : JValue

/-- Digit-string value for the Rust integer `from_str` parsers: `none`
unless the list is one or more ASCII digits. -/
def digitsVal (s : List Char) : Option Nat :=
  if s = [] then none
  else s.foldl (fun acc c =>
    acc.bind (fun a => if c.isDigit then some (10 * a + (c.toNat - 48)) else none))
    (some 0)

/-- Rust `i64::from_str`: optional sign, one or more digits, leading
zeros allowed ("03" is 3, "-0" is 0), value within the `i64` range. -/
def parseI64 (s : List Char) : Option Int :=
  match s with
  | '-' :: rest => (digitsVal rest).bind (fun n =>
      if n ≤ 9223372036854775808 then some (-(n : Int)) else none)
  | '+' :: rest => (digitsVal rest).bind (fun n =>
      if n < 9223372036854775808 then some ((n : Int)) else none)
  | _ => (digitsVal s).bind (fun n =>
      if n < 9223372036854775808 then some ((n : Int)) else none)

/-- Rust `usize::from_str` (64-bit): optional `+`, one or more digits. -/
def parseUsize (s : List Char) : Option Nat :=
  match s with
  | '+' :: rest => (digitsVal rest).bind (fun n =>
      if n < 18446744073709551616 then some n else none)
  | _ => (digitsVal s).bind (fun n =>
      if n < 18446744073709551616 then some n else none)

/-- The character scan loop of `bdecode_num`: skip every `i`, stop at
the first `e` (or at the end of input), collect digits and a minus sign
that is only allowed as the first collected character, and bail on any
other character.  (The source interpolates the offending character and
input into its error message; the model keeps a fixed message.) -/
def numScan : List Char → Bool → Except String (List Char)
  | [], _ => .ok []
  | c :: rest, signed_seen =>
    if c = 'i' then numScan rest signed_seen
    else if c = 'e' then .ok []
    else if c.isDigit ∨ (c = '-' ∧ signed_seen = false) then
      (numScan rest true).map (c :: ·)
    else .error "unexpected char in number input"

/-- Model of `bdecode_num`: scan the number string, then parse it as `i64`; the
covered length is the collected string plus prefix and suffix. -/
def bdecode_num (input : List Char) : Except String PV :=
  match numScan input false with
  | .error e => .error e
  | .ok num_string =>
    match parseI64 num_string with
    | none => .error "cannot parse as i64"
    | some n => .ok ⟨num_string.length + 2, .num n⟩

/-- Model of `splitn(2, ':')`: the characters before the first colon, and the
rest after it (`none` when the input has no colon). -/
def splitColon : List Char → (List Char × Option (List Char))
  | [] => ([], none)
  | c :: rest =>
    if c = ':' then ([], some rest)
    else
      let (a, b) := splitColon rest
      (c :: a, b)

/-- Model of `bdecode_string`: parse `<len>:<contents>`; the length prefix is
parsed as `usize` before the presence of a colon is checked, and the
contents must hold at least `len` characters. -/
def bdecode_string (input : List Char) : Except String PV :=
  let length_string := (splitColon input).1
  match parseUsize length_string with
  | none => .error "parsing length in encoded string"
  | some length =>
    match (splitColon input).2 with
    | none => .error "content missing after split char"
    | some contents =>
      if length ≤ contents.length then
        .ok ⟨length + length_string.length + 1, .str (String.mk (contents.take length))⟩
      else .error "incorrect length encoding"

/-- The mutually recursive part of the decoder: `decode` dispatching on
the first character, and the loops of `bdecode_dict` / `bdecode_list`
(one constructor per loop, carrying the iterator position, accumulated
container and covered length). -/
inductive DecJob where
  | top (s : List Char)
  | dict (s : List Char) (pos : Nat) (map : List (String × JValue)) (dlen : Nat)
  | list (s : List Char) (pos : Nat) (acc : List JValue) (llen : Nat)

/-- One fuel-indexed recursive function for `decode`, `bdecode_dict` and
`bdecode_list` (each recursive call and loop iteration spends one unit
of fuel; the wrappers below supply more units than any input can use, so
the fuel-exhaustion error is unreachable from them). -/
def bdecF : Nat → DecJob → Except String PV
  | 0, _ => .error "fuel exhausted"
  | fuel + 1, .top s =>
    match s.head? with
    | none => .error "empty input"
    | some c =>
      if c.isDigit then bdecode_string s
      else if c = 'i' then bdecode_num s
      else if c = 'l' then bdecF fuel (.list s 0 [] 2)
      else if c = 'd' then bdecF fuel (.dict s 0 [] 2)
      else .error "dont know how to handle"
  | fuel + 1, .dict s pos map dlen =>
    match s.get? pos with
    | none => .error "unexpected iterator end, expected peekable char"
    | some c =>
      if c = 'e' then .ok ⟨dlen, .obj map⟩
      else if c = 'd' then bdecF fuel (.dict s (pos + 1) map dlen)
      else
        match bdecode_string (s.drop pos) with
        | .error e => .error e
        | .ok key =>
          if s.length < pos + key.length then
            .error "expected value to follow a key in dict iterator"
          else
            match s.get? (pos + key.length) with
            | none => .error "unexpected iterator end, expected value"
            | some c2 =>
              if c2 = 'e' then .error "unexpected end token in dict, expected value"
              else
                match bdecF fuel (.top (s.drop (pos + key.length))) with
                | .error e => .error e
                | .ok v =>
                  match key.value with
                  | .str ks =>
                    if s.length < pos + key.length + v.length then
                      .error "unexpected end in value"
                    else bdecF fuel (.dict s (pos + key.length + v.length)
                      (mapInsert ks v.value map) (dlen + key.length + v.length))
                  | _ => .error "empty input"
  | fuel + 1, .list s pos acc llen =>
    match s.get? pos with
    | none => .ok ⟨llen, .arr acc⟩
    | some c =>
      if c = 'e' then .ok ⟨llen, .arr acc⟩
      else if c = 'l' then bdecF fuel (.list s (pos + 1) acc llen)
      else
        match bdecF fuel (.top (s.drop pos)) with
        | .error e => .error e
        | .ok v =>
          if s.length < pos + v.length then .error "unexpected end of iter"
          else bdecF fuel (.list s (pos + v.length) (acc ++ [v.value]) (llen + v.length))

/-- Model of `decode`: dispatch on the first character. -/
def decode (s : List Char) : Except String PV :=
  bdecF (10 * s.length + 10) (.top s)

/-- Model of `bdecode_dict` as a standalone entry point. -/
def bdecode_dict (s : List Char) : Except String PV :=
  bdecF (10 * s.length + 10) (.dict s 0 [] 2)

/-- Model of `bdecode_list` as a standalone entry point. -/
def bdecode_list (s : List Char) : Except String PV :=
  bdecF (10 * s.length + 10) (.list s 0 [] 2)

example : decode "d3:foo3:bar5:helloi52ee".data =
    .ok ⟨23, .obj [("foo", .str "bar"), ("hello", .num 52)]⟩ := rfl
example : decode "l5:helloi52ei43e4:adade".data =
    .ok ⟨23, .arr [.str "hello", .num 52, .num 43, .str "adad"]⟩ := rfl
example : bdecode_dict "d1:ai1e1:ai2ee".data = .ok ⟨14, .obj [("a", .num 2)]⟩ := rfl
example : bdecode_num "i-0e".data = .ok ⟨4, .num 0⟩ := rfl
example : bdecode_num "i03e".data = .ok ⟨4, .num 3⟩ := rfl
example : bdecode_num "i-e".data = .error "cannot parse as i64" := rfl
example : bdecode_num "ie".data = .error "cannot parse as i64" := rfl
example : decode "i52e".data = .ok ⟨4, .num 52⟩ := rfl
example : decode "5:hello".data = .ok ⟨7, .str "hello"⟩ := rfl

/-! ## Theorems -/

theorem take_append_len {α : Type} (n : Nat) (l1 l2 : List α) (h : l1.length = n) :
    (l1 ++ l2).take n = l1 := by
  subst h; exact List.take_left l1 l2

theorem drop_append_len {α : Type} (n : Nat) (l1 l2 : List α) (h : l1.length = n) :
    (l1 ++ l2).drop n = l2 := by
  subst h; exact List.drop_left l1 l2

/-- C1: the serialized request frame is not the claimed 17-byte frame
with a 4-byte big-endian length prefix: `REQUEST_MESSAGE_LENGTH_BYTES`
is a `usize`, so its `to_be_bytes()` is 8 bytes on a 64-bit target and
the frame is 21 bytes whose first four bytes are zero (a keep-alive
length under the claimed framing). -/
theorem c1_request_frame_is_21_bytes :
    PeerMessage.to_bytes (.request ⟨0, 0, 16384⟩) =
      some [0, 0, 0, 0, 0, 0, 0, 13, 6, 0, 0, 0, 0, 0, 0, 0, 0, 0, 0, 64, 0] ∧
    ([0, 0, 0, 0, 0, 0, 0, 13, 6, 0, 0, 0, 0, 0, 0, 0, 0, 0, 0, 64, 0] : List Nat).length = 21 ∧
    ([0, 0, 0, 0, 0, 0, 0, 13, 6, 0, 0, 0, 0, 0, 0, 0, 0, 0, 0, 64, 0] : List Nat).take 4
      = [0, 0, 0, 0] :=
  ⟨rfl, rfl, rfl⟩

/-- C2 counterexample: a 68-byte handshake reply whose byte 28 (value
99) differs from the expected info-hash byte (value 0) — and whose
protocol-string bytes are not "BitTorrent protocol" either — is parsed
successfully; no mismatch error of any kind is raised. -/
theorem c2_counterexample :
    (List.replicate 28 0 ++ [99] ++ List.replicate 19 0 ++ List.range 20 : List Nat).get? 28
      = some 99 ∧
    (Hash.new (List.replicate 20 0)).get_hash.get? 0 = some 0 ∧
    Handshake.from_bytes (List.replicate 28 0 ++ [99] ++ List.replicate 19 0 ++ List.range 20)
      = .ok ⟨Hash.new ([99] ++ List.replicate 19 0), List.range 20⟩ :=
  ⟨rfl, rfl, rfl⟩

/-- C2 (amended): parsing a received 68-byte handshake always succeeds,
returning bytes 28..48 as the info-hash and bytes 48..68 as the peer
id; no byte is compared against the expected protocol string or
info-hash, so no handshake-mismatch error exists. -/
theorem c2_parse_unconditional (data : List Nat) (h : data.length = 68) :
    Handshake.from_bytes data
      = .ok ⟨Hash.new ((data.drop 28).take 20), (data.drop 48).take 20⟩ := by
  unfold Handshake.from_bytes
  have hl : ((data.drop 28).take 20).length = 20 := by
    simp [List.length_take, List.length_drop, h]
  simp [hl]

/-- C2 witness: the amended theorem applied to the all-zero reply. -/
theorem c2_parse_unconditional_witness :
    Handshake.from_bytes (List.replicate 68 0)
      = .ok ⟨Hash.new (((List.replicate 68 0 : List Nat)).drop 28 |>.take 20),
             ((List.replicate 68 0 : List Nat).drop 48).take 20⟩ :=
  c2_parse_unconditional (List.replicate 68 0) (by decide)

/-- C4 counterexample: a dictionary that contains the key "a" twice is
decoded without error; the second value overwrites the first. -/
theorem c4_counterexample :
    bdecode_dict "d1:ai1e1:ai2ee".data = .ok ⟨14, .obj [("a", .num 2)]⟩ := rfl

/-- C4 (amended): a dictionary of the form `d1:ai<x>e1:ai<y>ee` that
binds the key "a" twice decodes successfully to the object mapping "a"
to the second value, for any decimal digits x and y: duplicate keys are
overwritten by `Map::insert`, not rejected. -/
theorem c4_duplicate_key_overwrites (d1 d2 : Nat) (h1 : d1 < 10) (h2 : d2 < 10) :
    bdecode_dict ['d', '1', ':', 'a', 'i', Char.ofNat (48 + d1), 'e',
                  '1', ':', 'a', 'i', Char.ofNat (48 + d2), 'e', 'e']
      = .ok ⟨14, .obj [("a", .num (d2 : Int))]⟩ := by
  interval_cases d1 <;> interval_cases d2 <;> rfl

/-- C4 witness: the amended theorem at x = 1, y = 2. -/
theorem c4_duplicate_key_overwrites_witness :
    bdecode_dict ['d', '1', ':', 'a', 'i', Char.ofNat 49, 'e',
                  '1', ':', 'a', 'i', Char.ofNat 50, 'e', 'e']
      = .ok ⟨14, .obj [("a", .num (2 : Int))]⟩ :=
  c4_duplicate_key_overwrites 1 2 (by decide) (by decide)

/-- C5 counterexample: `i-0e` is not rejected; it decodes to 0, because
the collected string "-0" is handed to Rust's `i64` parser, which
accepts it. -/
theorem c5_counterexample : bdecode_num "i-0e".data = .ok ⟨4, .num 0⟩ := rfl

/-- C5 (amended): the integer decoder rejects `i-e` and `ie` (their
collected strings do not parse as `i64`) but accepts `i-0e` as 0 and
`i03e` as 3: leading zeros and negative zero are allowed because the
decoder delegates to `i64::from_str`. -/
theorem c5_integer_decoder_behaviour :
    bdecode_num "i-0e".data = .ok ⟨4, .num 0⟩ ∧
    bdecode_num "i03e".data = .ok ⟨4, .num 3⟩ ∧
    bdecode_num "i-e".data = .error "cannot parse as i64" ∧
    bdecode_num "ie".data = .error "cannot parse as i64" :=
  ⟨rfl, rfl, rfl, rfl⟩

/-- C6 counterexample: a received choke message (id 0) is not tolerated;
`PeerMessage::from_bytes` fails on it with "unknown byte message id". -/
theorem c6_counterexample :
    PeerMessage.from_bytes 0 [] = some (.error "unknown byte message id: 0") := rfl

/-- C6 (amended): the ids accepted when parsing an incoming message are
unchoke (1), interested (2), bitfield (5), and piece (7, for payloads of
at least 8 bytes); every other id — including choke (0), have (4) and
request (6) — is an error. -/
theorem c6_accepted_message_ids :
    (∀ p : List Nat, PeerMessage.from_bytes 1 p = some (.ok .unchoke)) ∧
    (∀ p : List Nat, PeerMessage.from_bytes 2 p = some (.ok .interested)) ∧
    (∀ p : List Nat, PeerMessage.from_bytes 5 p = some (.ok .bitfield)) ∧
    (∀ p : List Nat, 8 ≤ p.length →
      PeerMessage.from_bytes 7 p = some (.ok (.piece ⟨(p.drop 8).take BLOCK_SIZE⟩))) ∧
    (∀ ident p, ident ≠ 1 → ident ≠ 2 → ident ≠ 5 → ident ≠ 7 →
      ∃ e, PeerMessage.from_bytes ident p = some (.error e)) := by
  refine ⟨fun p => rfl, fun p => rfl, fun p => rfl, fun p h8 => ?_, fun ident p h1 h2 h5 h7 => ?_⟩
  · have hpp : PiecePayload.from_bytes p = some (.ok ⟨(p.drop 8).take BLOCK_SIZE⟩) := by
      unfold PiecePayload.from_bytes
      rw [if_neg (by omega), if_neg (by omega)]
      by_cases hb : (p.drop 8).length < BLOCK_SIZE
      · rw [if_pos hb, List.take_of_length_le (Nat.le_of_lt hb)]
      · rw [if_neg hb]
    unfold PeerMessage.from_bytes
    rw [if_neg (by omega), if_neg (by omega), if_neg (by omega), if_neg (by omega),
      if_pos rfl, hpp]
  · unfold PeerMessage.from_bytes
    rw [if_neg h1, if_neg h2, if_neg h5, if_neg h7]
    by_cases h6 : ident = 6
    · exact ⟨"unexpected RequestPayload in PeerMessage, from_bytes is not implemented",
        by rw [if_pos h6]⟩
    · exact ⟨"unknown byte message id: " ++ toString ident, by rw [if_neg h6]⟩

/-- C6 witness: the amended theorem at id 7 with a 9-byte payload and at
id 4 (have) with an empty payload. -/
theorem c6_accepted_message_ids_witness :
    PeerMessage.from_bytes 7 [0, 0, 0, 0, 0, 0, 0, 0, 9]
      = some (.ok (.piece ⟨[9]⟩)) ∧
    (∃ e, PeerMessage.from_bytes 4 [] = some (.error e)) := by
  constructor
  · have h := c6_accepted_message_ids.2.2.2.1 [0, 0, 0, 0, 0, 0, 0, 0, 9] (by decide)
    simpa using h
  · exact c6_accepted_message_ids.2.2.2.2 4 [] (by decide) (by decide) (by decide) (by decide)

/-- C10: for every payload shorter than 8 bytes,
`PiecePayload::from_bytes` panics on an out-of-range slice instead of
returning an error value. -/
theorem c10_piece_payload_short_panics (b : List Nat) (h : b.length < 8) :
    PiecePayload.from_bytes b = none := by
  unfold PiecePayload.from_bytes
  by_cases h4 : b.length < 4
  · rw [if_pos h4]
  · rw [if_neg h4, if_pos h]

/-- C10 witness: the theorem at a 3-byte payload. -/
theorem c10_piece_payload_short_panics_witness :
    PiecePayload.from_bytes [0, 0, 0] = none :=
  c10_piece_payload_short_panics [0, 0, 0] (by decide)

/-- C9: the outgoing handshake is exactly 68 bytes: byte 0 is 19, bytes
1..20 are the ASCII string "BitTorrent protocol", bytes 20..28 are all
zero, bytes 28..48 are the info-hash and bytes 48..68 are the peer id
(for the well-formed 20-byte info-hashes and peer ids the source
constructs, which `copy_from_slice` requires). -/
theorem c9_handshake_bytes (ih pid : List Nat) (h1 : ih.length = 20) (h2 : pid.length = 20) :
    ∃ out, Handshake.to_bytes ⟨Hash.new ih, pid⟩ = some out ∧
      out.length = 68 ∧
      out.take 1 = [19] ∧
      (out.drop 1).take 19 = "BitTorrent protocol".data.map Char.toNat ∧
      (out.drop 20).take 8 = List.replicate 8 0 ∧
      (out.drop 28).take 20 = ih ∧
      (out.drop 48).take 20 = pid := by
  have hp : protocolBytes.length = 19 := rfl
  refine ⟨[19] ++ (protocolBytes ++ (List.replicate 8 0 ++ (ih ++ pid))),
    ?_, ?_, ?_, ?_, ?_, ?_, ?_⟩
  · unfold Handshake.to_bytes
    rw [if_pos ⟨h1, h2⟩]
    rfl
  · simp [List.length_append, hp, h1, h2]
  · rfl
  · show (protocolBytes ++ (List.replicate 8 0 ++ (ih ++ pid))).take 19
        = "BitTorrent protocol".data.map Char.toNat
    rw [take_append_len 19 _ _ hp]
    rfl
  · show (List.replicate 8 0 ++ (ih ++ pid)).take 8 = List.replicate 8 0
    exact take_append_len 8 _ _ rfl
  · show (ih ++ pid).take 20 = ih
    exact take_append_len 20 _ _ h1
  · show ((ih ++ pid).drop 20).take 20 = pid
    rw [drop_append_len 20 _ _ h1, List.take_of_length_le (Nat.le_of_eq h2)]

/-- C9 witness: the theorem at a concrete 20-byte info-hash and peer
id. -/
theorem c9_handshake_bytes_witness :
    ∃ out, Handshake.to_bytes ⟨Hash.new (List.replicate 20 7), List.replicate 20 3⟩ = some out ∧
      out.length = 68 ∧
      out.take 1 = [19] ∧
      (out.drop 1).take 19 = "BitTorrent protocol".data.map Char.toNat ∧
      (out.drop 20).take 8 = List.replicate 8 0 ∧
      (out.drop 28).take 20 = List.replicate 20 7 ∧
      (out.drop 48).take 20 = List.replicate 20 3 :=
  c9_handshake_bytes (List.replicate 20 7) (List.replicate 20 3) (by decide) (by decide)

/-- C3 counterexample: for a piece of length 16384 the single generated
request has length 16384, but the session accepts a piece message whose
block is only 3 bytes and — its SHA-1 matching the expected hash —
returns the 3-byte piece without any protocol error. -/
theorem c3_counterexample :
    RequestPayloadGen.run ⟨16384, 0, 0⟩ = some [⟨0, 0, 16384⟩] ∧
    download_piece ⟨Hash.hash [1, 2, 3], 0, 16384⟩ [(7, [0, 0, 0, 0, 0, 0, 0, 0, 1, 2, 3])]
      = some (.ok [1, 2, 3]) :=
  ⟨rfl, rfl⟩

/-- C3 (amended): each well-formed piece frame received in the download
loop is accepted with its block appended to the piece data — truncated
to `BLOCK_SIZE` bytes when longer, kept as-is (in particular short) when
not — and the block length is never compared against the length of the
outstanding request `rp`; length mismatches can only surface later
through the SHA-1 check. -/
theorem c3_blocks_accepted_unchecked (g : RequestPayloadGen) (rp : RequestPayload)
    (g' : RequestPayloadGen) (fuel : Nat) (msgs : List (Nat × List Nat))
    (acc payload : List Nat) (hy : g.next = .yield rp g')
    (h8 : 8 ≤ payload.length) (hmax : payload.length ≤ MAX_PAYLOAD_LEN) :
    dpLoop (fuel + 1) g ((7, payload) :: msgs) acc
      = dpLoop fuel g' msgs (acc ++ (payload.drop 8).take BLOCK_SIZE) := by
  have hpm := c6_accepted_message_ids.2.2.2.1 payload h8
  have hnm : ¬ (payload.length > MAX_PAYLOAD_LEN) := by omega
  simp only [dpLoop, hy, readMessage, if_neg hnm, hpm]

/-- C3 witness: the amended theorem for the first 16384-byte request of
a 16384-byte piece answered with a 2-byte block. -/
theorem c3_blocks_accepted_unchecked_witness :
    dpLoop 1 ⟨16384, 0, 0⟩ [(7, [0, 0, 0, 0, 0, 0, 0, 0, 5, 6])] []
      = dpLoop 0 ⟨16384, 0, 16384⟩ []
          ([] ++ (([0, 0, 0, 0, 0, 0, 0, 0, 5, 6] : List Nat).drop 8).take BLOCK_SIZE) :=
  c3_blocks_accepted_unchecked ⟨16384, 0, 0⟩ ⟨0, 0, 16384⟩ ⟨16384, 0, 16384⟩ 0 []
    [] [0, 0, 0, 0, 0, 0, 0, 0, 5, 6] (by decide) (by decide) (by decide)

/-- C7 counterexample: a piece of claimed length 100 whose single block
response carries only 5 bytes is returned successfully when the SHA-1 of
those 5 bytes equals the expected hash: the concatenated length is never
verified against the piece length. -/
theorem c7_counterexample :
    download_piece ⟨Hash.hash [1, 2, 3, 4, 5], 0, 100⟩
        [(7, [0, 0, 0, 0, 0, 0, 0, 0, 1, 2, 3, 4, 5])]
      = some (.ok [1, 2, 3, 4, 5]) ∧
    ([1, 2, 3, 4, 5] : List Nat).length ≠ 100 :=
  ⟨rfl, by decide⟩

/-- C7 (amended): after the block responses are collected the session
compares the SHA-1 of the concatenation (in arrival, i.e. ascending
begin, order) with the expected piece hash: every piece returned
successfully has a matching digest, and a collected concatenation whose
digest differs makes the session fail with the hash-mismatch error.  No
separate check that the concatenated length equals the piece length is
performed. -/
theorem c7_hash_checked :
    (∀ piece msgs data, download_piece piece msgs = some (.ok data) →
      Hash.hash data = piece.hash) ∧
    (∀ piece msgs data,
      dpLoop (piece.len + 1) ⟨piece.len, piece.idx, 0⟩ msgs [] = some (.ok data) →
      Hash.hash data ≠ piece.hash →
      download_piece piece msgs = some (.error "hash not matching of downloaded piece")) := by
  constructor
  · intro piece msgs data h
    unfold download_piece at h
    split at h
    · exact absurd h (by simp)
    · exact absurd h (by simp)
    · rename_i piece_data heq
      split at h
      · exact absurd h (by simp)
      · rename_i hh
        have hd : piece_data = data := by simpa using h
        subst hd
        exact not_not.mp hh
  · intro piece msgs data h hne
    unfold download_piece
    rw [h]
    simp [hne]

/-- The closed form of the request sequence emitted from a generator
state with `progress = p < piece_len = L` (for inputs within the `u32`
bounds the source's `expect` conversions require): one request per
16384-byte block of the remaining `[p, L)` range, at offsets
`p, p + 16384, …`, all of length 16384 except the final one. -/
theorem emitFrom_closed (fuel : Nat) : ∀ L idx p, p < L → L ≤ 4294967296 →
    idx < 4294967296 → L - p < fuel →
    emitFrom fuel ⟨L, idx, p⟩ =
      some ((List.range ((L - p - 1) / 16384 + 1)).map (fun i =>
        ⟨idx, p + 16384 * i,
         if i = (L - p - 1) / 16384 then L - p - 16384 * ((L - p - 1) / 16384)
         else 16384⟩)) := by
  induction fuel with
  | zero => intro L idx p h1 _ _ hf; omega
  | succ f ih =>
    intro L idx p h1 h2 h3 hf
    by_cases hA : p + 16384 ≤ L
    · have hnext : RequestPayloadGen.next ⟨L, idx, p⟩
          = .yield ⟨idx, p, 16384⟩ ⟨L, idx, p + 16384⟩ := by
        simp only [RequestPayloadGen.next, BLOCK_SIZE,
          show (16 * 1024 : Nat) = 16384 from by norm_num]
        rw [if_neg (show ¬ (L ≤ p) by omega), if_pos hA, if_pos h3,
          if_pos (show p < 4294967296 by omega),
          if_pos (show (16384 : Nat) < 4294967296 by norm_num)]
      rcases Nat.lt_or_ge (p + 16384) L with hA2 | hA2
      · -- not the final block: recurse
        have hrec := ih L idx (p + 16384) (by omega) h2 h3 (by omega)
        have hdiv : (L - p - 1) / 16384 = (L - (p + 16384) - 1) / 16384 + 1 := by
          have d1 := Nat.div_add_mod (L - p - 1) 16384
          have d2 := Nat.div_add_mod (L - (p + 16384) - 1) 16384
          have m1 := Nat.mod_lt (L - p - 1) (show 0 < 16384 by norm_num)
          have m2 := Nat.mod_lt (L - (p + 16384) - 1) (show 0 < 16384 by norm_num)
          omega
        have hsplit : (List.range ((L - (p + 16384) - 1) / 16384 + 1 + 1)).map
              (fun i => (⟨idx, p + 16384 * i,
                if i = (L - (p + 16384) - 1) / 16384 + 1
                then L - p - 16384 * ((L - (p + 16384) - 1) / 16384 + 1)
                else 16384⟩ : RequestPayload))
            = ⟨idx, p, 16384⟩ :: (List.range ((L - (p + 16384) - 1) / 16384 + 1)).map
                (fun i => ⟨idx, p + 16384 + 16384 * i,
                  if i = (L - (p + 16384) - 1) / 16384
                  then L - (p + 16384) - 16384 * ((L - (p + 16384) - 1) / 16384)
                  else 16384⟩) := by
          rw [List.range_succ_eq_map, List.map_cons, List.map_map]
          congr 1
          apply List.map_congr_left
          intro i hi
          simp only [Function.comp_apply, RequestPayload.mk.injEq]
          refine ⟨by trivial, by omega, ?_⟩
          by_cases hiq : i = (L - (p + 16384) - 1) / 16384
          · rw [if_pos (by omega), if_pos hiq]
            omega
          · rw [if_neg (by omega), if_neg hiq]
        simp only [emitFrom, hnext, hrec, Option.map_some]
        rw [hdiv, hsplit]
        rfl
      · -- final block of length exactly 16384
        have hL : L = p + 16384 := by omega
        obtain ⟨f', rfl⟩ : ∃ f', f = f' + 1 := ⟨f - 1, by omega⟩
        have hdone : RequestPayloadGen.next ⟨L, idx, p + 16384⟩ = .done := by
          simp only [RequestPayloadGen.next]
          rw [if_pos (by omega)]
        simp only [emitFrom, hnext, hdone, Option.map_some]
        rw [show (L - p - 1) / 16384 = 0 from by omega]
        simp only [show List.range (0 + 1) = [0] from rfl, List.map_cons, List.map_nil,
          eq_self_iff_true, if_true]
        simp only [Nat.mul_zero, Nat.add_zero, Nat.sub_zero]
        rw [show L - p = 16384 from by omega]
        rfl
    · -- a single short final block of length L - p < 16384
      have hnext : RequestPayloadGen.next ⟨L, idx, p⟩
          = .yield ⟨idx, p, L - p⟩ ⟨L, idx, p + 16384⟩ := by
        simp only [RequestPayloadGen.next, BLOCK_SIZE,
          show (16 * 1024 : Nat) = 16384 from by norm_num]
        rw [if_neg (show ¬ (L ≤ p) by omega), if_neg hA,
          show p + 16384 - 16384 = p from by omega, if_pos h3,
          if_pos (show p < 4294967296 by omega),
          if_pos (show L - p < 4294967296 by omega)]
      obtain ⟨f', rfl⟩ : ∃ f', f = f' + 1 := ⟨f - 1, by omega⟩
      have hdone : RequestPayloadGen.next ⟨L, idx, p + 16384⟩ = .done := by
        simp only [RequestPayloadGen.next]
        rw [if_pos (by omega)]
      simp only [emitFrom, hnext, hdone, Option.map_some]
      rw [show (L - p - 1) / 16384 = 0 from by omega]
      simp only [show List.range (0 + 1) = [0] from rfl, List.map_cons, List.map_nil,
        eq_self_iff_true, if_true]
      simp only [Nat.mul_zero, Nat.add_zero, Nat.sub_zero]
      rfl

/-- C8: for every piece length 0 < L (within the `u32` range the
source's `expect` conversions assume, as is every real piece length, and
likewise for the piece index), the generator emits one request per
16384-byte block: offsets are 16384·i — strictly increasing from 0 —
every request but the last has length 16384, the last has length
L − 16384·⌊(L−1)/16384⌋ which lies in (0, 16384], the lengths sum to L,
and the generator state reached after the last request yields nothing
further. -/
theorem c8_block_request_schedule (L idx : Nat) (h1 : 0 < L)
    (h2 : L ≤ 4294967296) (h3 : idx < 4294967296) :
    ∃ reqs, RequestPayloadGen.run ⟨L, idx, 0⟩ = some reqs ∧
      reqs.length = (L - 1) / 16384 + 1 ∧
      (∀ i, i < reqs.length → (reqs.getD i ⟨0, 0, 0⟩).index = idx) ∧
      (∀ i, i < reqs.length → (reqs.getD i ⟨0, 0, 0⟩).begin = 16384 * i) ∧
      (∀ i, i + 1 < reqs.length → (reqs.getD i ⟨0, 0, 0⟩).length = 16384) ∧
      (reqs.getD (reqs.length - 1) ⟨0, 0, 0⟩).length = L - 16384 * ((L - 1) / 16384) ∧
      0 < L - 16384 * ((L - 1) / 16384) ∧
      L - 16384 * ((L - 1) / 16384) ≤ 16384 ∧
      (reqs.map RequestPayload.length).sum = L ∧
      RequestPayloadGen.next ⟨L, idx, 16384 * ((L - 1) / 16384) + 16384⟩ = .done := by
  have hrun : RequestPayloadGen.run ⟨L, idx, 0⟩
      = emitFrom (L + 1) ⟨L, idx, 0⟩ := rfl
  have hcl := emitFrom_closed (L + 1) L idx 0 h1 h2 h3 (by omega)
  simp only [Nat.sub_zero, Nat.zero_add] at hcl
  have dm := Nat.div_add_mod (L - 1) 16384
  have ml := Nat.mod_lt (L - 1) (show 0 < 16384 by norm_num)
  refine ⟨_, hrun.trans hcl, ?_, ?_, ?_, ?_, ?_, ?_, ?_, ?_, ?_⟩
  · simp
  · intro i hi
    simp only [List.length_map, List.length_range] at hi
    simp [List.getD, List.getElem?_map, List.getElem?_range hi]
  · intro i hi
    simp only [List.length_map, List.length_range] at hi
    simp [List.getD, List.getElem?_map, List.getElem?_range hi]
  · intro i hi
    simp only [List.length_map, List.length_range] at hi
    simp [List.getD, List.getElem?_map, List.getElem?_range (show i < (L-1)/16384 + 1 by omega),
      if_neg (show ¬ i = (L-1)/16384 by omega)]
  · simp only [List.length_map, List.length_range, Nat.add_sub_cancel]
    simp [List.getD, List.getElem?_map,
      List.getElem?_range (show (L-1)/16384 < (L-1)/16384 + 1 by omega)]
  · omega
  · omega
  · rw [List.map_map, List.range_succ, List.map_append, List.sum_append]
    have hconst : (List.range ((L - 1) / 16384)).map
          (RequestPayload.length ∘ (fun i => (⟨idx, 16384 * i,
            if i = (L - 1) / 16384 then L - 16384 * ((L - 1) / 16384)
            else 16384⟩ : RequestPayload)))
        = (List.range ((L - 1) / 16384)).map (fun _ => 16384) := by
      apply List.map_congr_left
      intro i hi
      simp only [Function.comp_apply]
      rw [if_neg (by simp at hi; omega)]
    rw [hconst]
    have hrep : (List.range ((L - 1) / 16384)).map (fun _ => (16384 : Nat))
        = List.replicate ((L - 1) / 16384) 16384 := by
      rw [List.map_const']
      simp
    rw [hrep, List.sum_replicate]
    simp only [List.map_cons, List.map_nil, Function.comp_apply, eq_self_iff_true,
      if_true, List.sum_cons, List.sum_nil, smul_eq_mul]
    omega
  · simp only [RequestPayloadGen.next]
    rw [if_pos (by omega)]

/-- C8 witness: the schedule theorem for a 6241-byte piece (the spec's
single-request scenario) at index 0. -/
theorem c8_block_request_schedule_witness :
    ∃ reqs, RequestPayloadGen.run ⟨6241, 0, 0⟩ = some reqs ∧
      reqs.length = (6241 - 1) / 16384 + 1 ∧
      (∀ i, i < reqs.length → (reqs.getD i ⟨0, 0, 0⟩).index = 0) ∧
      (∀ i, i < reqs.length → (reqs.getD i ⟨0, 0, 0⟩).begin = 16384 * i) ∧
      (∀ i, i + 1 < reqs.length → (reqs.getD i ⟨0, 0, 0⟩).length = 16384) ∧
      (reqs.getD (reqs.length - 1) ⟨0, 0, 0⟩).length = 6241 - 16384 * ((6241 - 1) / 16384) ∧
      0 < 6241 - 16384 * ((6241 - 1) / 16384) ∧
      6241 - 16384 * ((6241 - 1) / 16384) ≤ 16384 ∧
      (reqs.map RequestPayload.length).sum = 6241 ∧
      RequestPayloadGen.next ⟨6241, 0, 16384 * ((6241 - 1) / 16384) + 16384⟩ = .done :=
  c8_block_request_schedule 6241 0 (by decide) (by decide) (by decide)

/-- C7 witness: the two parts of the amended theorem at concrete
downloads (a matching 5-byte piece, and a mismatching 1-byte piece). -/
theorem c7_hash_checked_witness :
    Hash.hash [1, 2, 3, 4, 5] = (Hash.hash [1, 2, 3, 4, 5]) ∧
    download_piece ⟨Hash.hash [9], 0, 16384⟩ [(7, [0, 0, 0, 0, 0, 0, 0, 0, 1])]
      = some (.error "hash not matching of downloaded piece") :=
  ⟨c7_hash_checked.1 ⟨Hash.hash [1, 2, 3, 4, 5], 0, 100⟩
      [(7, [0, 0, 0, 0, 0, 0, 0, 0, 1, 2, 3, 4, 5])] [1, 2, 3, 4, 5] rfl,
   c7_hash_checked.2 ⟨Hash.hash [9], 0, 16384⟩ [(7, [0, 0, 0, 0, 0, 0, 0, 0, 1])] [1]
      rfl (by decide)⟩
